import Mathlib

/-!
# xclang.c : lexer stub, interpreter stub and driver

A shallow embedding of `src/xclang.c`.  The C globals (`token`, `src`, `pc`,
`sp`, `bp`, `ax`, ...) become the fields of one record `State` that every
function takes and returns.  Memory is one flat byte-addressed space, because
the source reinterprets integers as addresses (`*(char *)ax`, `*(int *)*sp++`).
The globals are objects in that space too: `State.lay` gives the address of
each, `image` is the memory the running program sees (the field `mem` with the
current values of the globals laid over it), and a store made by `eval()` that
lands on a global changes that global.

Platform assumptions, the ones of the x86-64 System V ABI:
* `#define int long long` makes every `int` of the file a signed 64 bit
  integer, stored little endian in 8 bytes; one "cell" is 8 bytes;
* plain `char` is signed and 8 bits wide;
* pointers are 8 bytes wide, and accesses act on bytes: the type-based aliasing
  rules of C are not modelled.

An access outside the allocated bytes is undefined behaviour in C; here it is
the result `none` (or `Result.fault` for a whole function).
-/

namespace XClang

/-! ## Opcodes (lines 29-31) -/

def LEA : Int := 0
def IMM : Int := 1
def JMP : Int := 2
def CALL : Int := 3
def JZ : Int := 4
def JNZ : Int := 5
def ENT : Int := 6
def ADJ : Int := 7
def LEV : Int := 8
def LI : Int := 9
def LC : Int := 10
def SI : Int := 11
def SC : Int := 12
def PUSH : Int := 13
def OR : Int := 14
def XOR : Int := 15
def AND : Int := 16
def EQ : Int := 17
def NE : Int := 18
def LT : Int := 19
def GT : Int := 20
def LE : Int := 21
def GE : Int := 22
def SHL : Int := 23
def SHR : Int := 24
def ADD : Int := 25
def SUB : Int := 26
def MUL : Int := 27
def DIV : Int := 28
def MOD : Int := 29
def OPEN : Int := 30
def READ : Int := 31
def CLOS : Int := 32
def PRTF : Int := 33
def MALC : Int := 34
def MSET : Int := 35
def MCMP : Int := 36
def EXIT : Int := 37

/-! ## Memory -/

/-- Flat memory: the byte stored at each address (read modulo 256) and which
addresses lie inside an allocated object. -/
structure Memory where
  byte : Nat → Nat
  alloc : Nat → Bool

/-- Width in bytes of one cell, `sizeof(long long)`. -/
def cellBytes : Nat := 8

/-- All of the `n` bytes starting at `a` are allocated. -/
def allocRange (m : Memory) (a : Nat) : Nat → Bool
  | 0 => true
  | n + 1 => m.alloc a && allocRange m (a + 1) n

/-- Little-endian unsigned value of the `n` bytes starting at `a`. -/
def loadBytes (m : Memory) (a : Nat) : Nat → Nat
  | 0 => 0
  | n + 1 => m.byte a % 256 + 256 * loadBytes m (a + 1) n

/-- Memory after writing the low `n` bytes of `v`, little endian, at `a`. -/
def storeBytes (m : Memory) (a n v : Nat) : Memory :=
  { m with byte := fun x => if a ≤ x ∧ x < a + n then v / 256 ^ (x - a) % 256 else m.byte x }

/-- Bit pattern of a `long long`, also the address an integer denotes when it
is cast to a pointer. -/
def wrap64 (v : Int) : Nat := (v % 2 ^ 64).toNat

/-- Signed reading of a 64 bit pattern. -/
def signed64 (n : Nat) : Int := if n < 2 ^ 63 then (n : Int) else (n : Int) - 2 ^ 64

/-- Conversion `(char)v` of an integer, widened back: the low byte, sign extended. -/
def toChar (v : Int) : Int := if v % 256 < 128 then v % 256 else v % 256 - 256

/-- The values a `long long` can hold. -/
def isInt64 (v : Int) : Prop := -2 ^ 63 ≤ v ∧ v < 2 ^ 63

instance (v : Int) : Decidable (isInt64 v) := by unfold isInt64; infer_instance

/-- Read of an `int` (a `long long`) at address `a`. -/
def loadInt (m : Memory) (a : Nat) : Option Int :=
  if allocRange m a cellBytes then some (signed64 (loadBytes m a cellBytes)) else none

/-- Write of an `int` at address `a`. -/
def storeInt (m : Memory) (a : Nat) (v : Int) : Option Memory :=
  if allocRange m a cellBytes then some (storeBytes m a cellBytes (wrap64 v)) else none

/-- Read of a `char` at address `a`, widened to an integer. -/
def loadChar (m : Memory) (a : Nat) : Option Int :=
  if m.alloc a then some (toChar (m.byte a % 256 : Nat)) else none

/-- Write of a `char` at address `a`: the low byte of `v`. -/
def storeChar (m : Memory) (a : Nat) (v : Int) : Option Memory :=
  if m.alloc a then some (storeBytes m a 1 (wrap64 v)) else none

/-! ## Global state (lines 13-26) -/

/-- Addresses at which the file-scope globals of lines 13-26 are stored.  Each
global is a pointer or a `long long` and occupies one cell. -/
structure Layout where
  token : Nat
  src : Nat
  old_src : Nat
  poolsize : Nat
  line : Nat
  text : Nat
  old_text : Nat
  stack : Nat
  data : Nat
  pc : Nat
  bp : Nat
  sp : Nat
  ax : Nat
  cycle : Nat

/-- The addresses of all the globals. -/
def Layout.addrs (L : Layout) : List Nat :=
  [L.token, L.src, L.old_src, L.poolsize, L.line, L.text, L.old_text, L.stack, L.data,
   L.pc, L.bp, L.sp, L.ax, L.cycle]

/-- The globals of the file with their current values, where they are stored
(`lay`), the rest of memory (`mem`), and standard output: `out` lists the
`token` argument of each `printf("token: %c\n", token)`. -/
structure State where
  token : Int
  src : Nat
  old_src : Nat
  poolsize : Int
  line : Int
  text : Nat
  old_text : Nat
  stack : Nat
  data : Nat
  pc : Nat
  bp : Nat
  sp : Nat
  ax : Int
  cycle : Int
  mem : Memory
  out : List Int
  lay : Layout

/-- The cells of the globals: the address of each and the 64 bit pattern of
its current value. -/
def globalCells (s : State) : List (Nat × Nat) :=
  [(s.lay.token, wrap64 s.token), (s.lay.src, s.src % 2 ^ 64),
   (s.lay.old_src, s.old_src % 2 ^ 64), (s.lay.poolsize, wrap64 s.poolsize),
   (s.lay.line, wrap64 s.line), (s.lay.text, s.text % 2 ^ 64),
   (s.lay.old_text, s.old_text % 2 ^ 64), (s.lay.stack, s.stack % 2 ^ 64),
   (s.lay.data, s.data % 2 ^ 64), (s.lay.pc, s.pc % 2 ^ 64), (s.lay.bp, s.bp % 2 ^ 64),
   (s.lay.sp, s.sp % 2 ^ 64), (s.lay.ax, wrap64 s.ax), (s.lay.cycle, wrap64 s.cycle)]

/-- Memory `m` with the cell at `g` allocated and holding the pattern `v`. -/
def putCell (m : Memory) (g v : Nat) : Memory :=
  { byte := fun x => if g ≤ x ∧ x < g + cellBytes then v / 256 ^ (x - g) % 256 else m.byte x
    alloc := fun x => decide (g ≤ x ∧ x < g + cellBytes) || m.alloc x }

/-- Memory `m` with each listed cell laid over it. -/
def overlay (m : Memory) : List (Nat × Nat) → Memory
  | [] => m
  | c :: cs => putCell (overlay m cs) c.1 c.2

/-- Memory as the running program sees it: `mem` with the globals at their
addresses. -/
def image (s : State) : Memory := overlay s.mem (globalCells s)

/-- The `n` bytes at `a` meet the cell at `g`. -/
def overlaps (a n g : Nat) : Bool := decide (a < g + cellBytes ∧ g < a + n)

/-- The `n` bytes at `a` meet the cell of no global. -/
def clearOfGlobals (L : Layout) (a n : Nat) : Bool := L.addrs.all fun g => !overlaps a n g

/-- Value of the integer global stored at `g` after `n` bytes were written at
`a`, `img` being the memory after the write. -/
def reloadInt (img : Memory) (a n g : Nat) (old : Int) : Int :=
  if overlaps a n g then signed64 (loadBytes img g cellBytes) else old

/-- Value of the pointer global stored at `g` after `n` bytes were written at
`a`, `img` being the memory after the write. -/
def reloadPtr (img : Memory) (a n g : Nat) (old : Nat) : Nat :=
  if overlaps a n g then loadBytes img g cellBytes else old

/-- A store by the running program of the low `n` bytes of `v` at address `a`:
the bytes must be allocated in the memory the program sees; every global the
bytes land on takes its new value from them. -/
def storeAt (s : State) (a n v : Nat) : Option State :=
  if allocRange (image s) a n then
    some { s with
      mem := storeBytes s.mem a n v
      token := reloadInt (storeBytes (image s) a n v) a n s.lay.token s.token
      src := reloadPtr (storeBytes (image s) a n v) a n s.lay.src s.src
      old_src := reloadPtr (storeBytes (image s) a n v) a n s.lay.old_src s.old_src
      poolsize := reloadInt (storeBytes (image s) a n v) a n s.lay.poolsize s.poolsize
      line := reloadInt (storeBytes (image s) a n v) a n s.lay.line s.line
      text := reloadPtr (storeBytes (image s) a n v) a n s.lay.text s.text
      old_text := reloadPtr (storeBytes (image s) a n v) a n s.lay.old_text s.old_text
      stack := reloadPtr (storeBytes (image s) a n v) a n s.lay.stack s.stack
      data := reloadPtr (storeBytes (image s) a n v) a n s.lay.data s.data
      pc := reloadPtr (storeBytes (image s) a n v) a n s.lay.pc s.pc
      bp := reloadPtr (storeBytes (image s) a n v) a n s.lay.bp s.bp
      sp := reloadPtr (storeBytes (image s) a n v) a n s.lay.sp s.sp
      ax := reloadInt (storeBytes (image s) a n v) a n s.lay.ax s.ax
      cycle := reloadInt (storeBytes (image s) a n v) a n s.lay.cycle s.cycle }
  else none

/-- Outcome of running a function that loops: it returned, it made an invalid
memory access, or it was still looping when the iteration budget ran out. -/
inductive Result (α : Type) where
  | done (a : α)
  | fault
  | running

/-! ## Lexer and parser stubs (lines 33-55) -/

/-- Line 34: `token = *src++;`.  The source buffer is an object of its own,
held in `mem`. -/
def next (s : State) : Option State :=
  match loadChar s.mem s.src with
  | none => none
  | some c => some { s with token := c, src := s.src + 1 }

/-- Lines 39-41: `expression` has an empty body. -/
def expression (_level : Int) (s : State) : State := s

/-- Lines 47-54: `while (token > 0) { printf(...); next(); }`, at most `fuel`
evaluations of the loop condition. -/
def programLoop : Nat → State → Result State
  | 0, _ => Result.running
  | fuel + 1, s =>
    if s.token > 0 then
      match next { s with out := s.out ++ [s.token] } with
      | none => Result.fault
      | some s' => programLoop fuel s'
    else Result.done s

/-- Lines 43-55: `program`. -/
def program (fuel : Nat) (s : State) : Result State :=
  match next s with
  | none => Result.fault
  | some s' => programLoop fuel s'

/-! ## Interpreter stub (lines 58-70) -/

/-- Lines 62-66, one pass through the body of the `while (1)` loop.  The local
`op` is declared on line 60 and never assigned, so its value is a parameter.
Loads read the memory the program sees and stores go through `storeAt`, so
both reach the globals.  The updates within `SI` and `SC` are taken in the
order in which the statement is written: `sp` is advanced, the store is made,
and for `SC` the result is then assigned to `ax`. -/
def evalBody (op : Int) (s : State) : Option State :=
  if op = IMM then
    -- ax = *pc++;
    match loadInt (image s) s.pc with
    | none => none
    | some v => some { s with ax := v, pc := s.pc + cellBytes }
  else if op = LC then
    -- ax = *(char *)ax;
    match loadChar (image s) (wrap64 s.ax) with
    | none => none
    | some c => some { s with ax := c }
  else if op = LI then
    -- ax = *(int *)ax;
    match loadInt (image s) (wrap64 s.ax) with
    | none => none
    | some v => some { s with ax := v }
  else if op = SC then
    -- ax = *(char *)*sp++ = ax;
    match loadInt (image s) s.sp with
    | none => none
    | some a =>
      match storeAt { s with sp := s.sp + cellBytes } (wrap64 a) 1 (wrap64 s.ax) with
      | none => none
      | some s1 => some { s1 with ax := toChar s.ax }
  else if op = SI then
    -- *(int *)*sp++ = ax;
    match loadInt (image s) s.sp with
    | none => none
    | some a =>
      match storeAt { s with sp := s.sp + cellBytes } (wrap64 a) cellBytes (wrap64 s.ax) with
      | none => none
      | some s1 => some s1
  else some s

/-- Lines 61-69: `while (1) { ... } return 0;`, at most `fuel` iterations.  The
result pairs the returned value with the final state. -/
def eval (op : Int) : Nat → State → Result (Int × State)
  | 0, _ => Result.running
  | fuel + 1, s =>
    if (1 : Int) ≠ 0 then
      match evalBody op s with
      | none => Result.fault
      | some s' => eval op fuel s'
    else Result.done (0, s)

/-! ## Driver (lines 72-136) -/

/-- What the host returns to `main`: the results of `open`, of `malloc` (an
address, 0 for a null pointer) and of `read`. -/
structure Host where
  openResult : Int
  mallocResult : Nat
  readResult : Int

/-- Line 82: `poolsize = 256 * 1024;`. -/
def mainPoolsize : Int := 256 * 1024

/-- An index lies inside a buffer of `cap` bytes. -/
def inBuffer (cap idx : Int) : Prop := 0 ≤ idx ∧ idx < cap

instance (cap idx : Int) : Decidable (inBuffer cap idx) := by unfold inBuffer; infer_instance

/-- How a run of `main` goes, as far as line 133: it returned `code` from one
of lines 92, 103, 119; or its behaviour became undefined on line `line`; or it
wrote the terminator at index `i` inside the buffer and entered `program()`. -/
inductive MainOutcome where
  | returned (code : Int)
  | fault (line : Nat)
  | lexing (i : Int)

/-- Lines 124-126: `memset(p, 0, poolsize)` is defined only when `p` points to
an object, which a null pointer never does. -/
def memsetDefined (p : Nat) : Bool := decide (p ≠ 0)

/-- Lines 90-133 of `main`, given the values the pointers `text`, `stack` and
`data` hold when line 124 is reached. -/
def mainFrom (text stack data : Nat) (h : Host) : MainOutcome :=
  if h.openResult < 0 then MainOutcome.returned (-1)
  else if h.mallocResult = 0 then MainOutcome.returned (-1)
  else if h.readResult ≤ 0 then MainOutcome.returned (-1)
  else if !memsetDefined text then MainOutcome.fault 124
  else if !memsetDefined stack then MainOutcome.fault 125
  else if !memsetDefined data then MainOutcome.fault 126
  else if inBuffer mainPoolsize h.readResult then MainOutcome.lexing h.readResult
  else MainOutcome.fault 131

/-- Lines 72-133: `main`.  The pointers `text`, `stack` and `data` are
file-scope objects (lines 20-23), so they start as null pointers, and nothing
assigns them before line 124. -/
def main (h : Host) : MainOutcome := mainFrom 0 0 0 h

/-! ## Concrete memories for examples -/

/-- Memory holding the bytes `bs` from address `base` on, and nothing else. -/
def memOfBytes (base : Nat) (bs : List Nat) : Memory :=
  { byte := fun a => if base ≤ a then bs.getD (a - base) 0 else 0
    alloc := fun a => decide (base ≤ a ∧ a < base + bs.length) }

/-- The globals stored in 14 consecutive cells from address 65536 on. -/
def stdLayout : Layout :=
  { token := 65536, src := 65544, old_src := 65552, poolsize := 65560, line := 65568,
    text := 65576, old_text := 65584, stack := 65592, data := 65600, pc := 65608,
    bp := 65616, sp := 65624, ax := 65632, cycle := 65640 }

/-- State with every register zero over memory `m`, reading source at `src`,
the globals stored as in `stdLayout`. -/
def initState (m : Memory) (src : Nat) : State :=
  { token := 0, src := src, old_src := src, poolsize := mainPoolsize, line := 0,
    text := 0, old_text := 0, stack := 0, data := 0, pc := 0, bp := 0, sp := 0,
    ax := 0, cycle := 0, mem := m, out := [], lay := stdLayout }

/-- State of the interpreter over memory `m` with the given registers. -/
def vmState (m : Memory) (pc sp : Nat) (ax : Int) : State :=
  { initState m 0 with pc := pc, sp := sp, bp := sp, ax := ax }

/-- Source `"\x80a"`: a byte above 0x7f, then `a`, then the terminator. -/
def highByteState : State := initState (memOfBytes 1000 [0x80, 0x61, 0]) 1000

/-- Source `" a"`. -/
def spaceState : State := initState (memOfBytes 1000 [0x20, 0x61, 0]) 1000

/-- Source `"a"`. -/
def noSpaceState : State := initState (memOfBytes 1000 [0x61, 0]) 1000

/-- Two text cells at address 0, `IMM` then `42`, with `pc` on the first and
`ax` holding the address of the second. -/
def fetchState : State :=
  vmState (memOfBytes 0 [1, 0, 0, 0, 0, 0, 0, 0, 42, 0, 0, 0, 0, 0, 0, 0]) 0 0 8

/-- The same text with `pc` on the operand cell. -/
def operandState : State :=
  vmState (memOfBytes 0 [1, 0, 0, 0, 0, 0, 0, 0, 42, 0, 0, 0, 0, 0, 0, 0]) 8 0 0

/-- One stack cell at address 0 holding the address 16, a free cell at 8 and a
target cell at 16; `sp` on the stack cell and `ax = v`. -/
def storeState (v : Int) : State :=
  vmState (memOfBytes 0 [16, 0, 0, 0, 0, 0, 0, 0, 0, 0, 0, 0, 0, 0, 0, 0,
    0, 0, 0, 0, 0, 0, 0, 0]) 0 0 v

/-- One text cell holding `EXIT`, `pc` on it, `ax = 7`. -/
def exitState : State := vmState (memOfBytes 0 [37, 0, 0, 0, 0, 0, 0, 0]) 0 0 7

/-- One text cell holding `DIV`, `pc` on it, `ax = 0`. -/
def divState : State := vmState (memOfBytes 0 [28, 0, 0, 0, 0, 0, 0, 0]) 0 0 0

/-- Bytes of the scenario source `int main(){ int a; a = 1; return a + 1; }`. -/
def scenarioSource : List Nat :=
  "int main()\x7b int a; a = 1; return a + 1; \x7d".toList.map Char.toNat

/-- Memory with a zeroed text region of 256 bytes at address 1024 and the
scenario source, null-terminated, at address 4096. -/
def scenarioMem : Memory :=
  { byte := fun a => if 4096 ≤ a then (scenarioSource ++ [0]).getD (a - 4096) 0 else 0
    alloc := fun a =>
      decide ((1024 ≤ a ∧ a < 1024 + 256) ∨ (4096 ≤ a ∧ a < 4096 + (scenarioSource.length + 1))) }

/-- State before `program()` runs on the scenario source. -/
def scenarioState : State :=
  { initState scenarioMem 4096 with text := 1024, old_text := 1024, pc := 1024 }

/-- One stack cell at address 0 holding 65608, the address of the global `pc`;
`sp` on that cell, `pc = 0` and `ax = 85`. -/
def aliasPcState : State := vmState (memOfBytes 0 [72, 0, 1, 0, 0, 0, 0, 0]) 0 0 85

/-- One stack cell at address 0 holding 65632, the address of the global `ax`;
`sp` on that cell and `ax = 7`. -/
def aliasAxState : State := vmState (memOfBytes 0 [96, 0, 1, 0, 0, 0, 0, 0]) 0 0 7

/-- A host whose file is at least as long as the buffer: `read` fills it. -/
def fullRead : Host := { openResult := 3, mallocResult := 4096, readResult := mainPoolsize }

/-- A host whose file holds one byte. -/
def oneByteRead : Host := { openResult := 3, mallocResult := 4096, readResult := 1 }

/-- The bytes `bs` are stored, allocated, from address `a` on. -/
def holdsBytes (m : Memory) (a : Nat) : List Nat → Bool
  | [] => true
  | b :: bs => m.alloc a && decide (m.byte a % 256 = b) && holdsBytes m (a + 1) bs

/-! ## Arithmetic of the machine types -/

theorem signed64_wrap64 (v : Int) (hv : isInt64 v) : signed64 (wrap64 v) = v := by
  unfold isInt64 at hv
  unfold signed64 wrap64
  split <;> omega

theorem isInt64_signed64 (n : Nat) (hn : n < 2 ^ 64) : isInt64 (signed64 n) := by
  unfold isInt64 signed64
  split <;> omega

theorem wrap64_lt (v : Int) : wrap64 v < 2 ^ 64 := by
  unfold wrap64
  omega

theorem wrap64_mod_256 (v : Int) : ((wrap64 v % 256 : Nat) : Int) = v % 256 := by
  unfold wrap64
  omega

theorem toChar_idem (v : Int) : toChar (toChar v) = toChar v := by
  unfold toChar
  split <;> split <;> omega

theorem toChar_mod (v : Int) : toChar (v % 256) = toChar v := by
  unfold toChar
  split <;> split <;> omega

theorem toChar_eq_self_iff (v : Int) : toChar v = v ↔ -128 ≤ v ∧ v ≤ 127 := by
  unfold toChar
  split <;> omega

theorem toChar_ascii (c : Nat) (hc : c < 128) : toChar (c : Int) = c := by
  unfold toChar
  split <;> omega

/-! ## Memory lemmas -/

theorem allocRange_storeBytes (m : Memory) (a n v b : Nat) (k : Nat) :
    allocRange (storeBytes m a n v) b k = allocRange m b k := by
  induction k generalizing b with
  | zero => rfl
  | succ k ih =>
    simp only [allocRange, ih]
    rfl

theorem allocRange_head (m : Memory) (a n : Nat) (h : allocRange m a (n + 1) = true) :
    m.alloc a = true := by
  simp only [allocRange, Bool.and_eq_true] at h
  exact h.1

theorem storeBytes_byte_inside (m : Memory) (a n v x : Nat) (h1 : a ≤ x) (h2 : x < a + n) :
    (storeBytes m a n v).byte x = v / 256 ^ (x - a) % 256 := by
  simp [storeBytes, h1, h2]

theorem storeBytes_byte_outside (m : Memory) (a n v x : Nat) (h : x < a ∨ a + n ≤ x) :
    (storeBytes m a n v).byte x = m.byte x := by
  have : ¬ (a ≤ x ∧ x < a + n) := by omega
  simp [storeBytes, this]

theorem loadBytes_storeBytes_aux (m : Memory) (a n v : Nat) (j : Nat) :
    ∀ k, k + j ≤ n → loadBytes (storeBytes m a n v) (a + k) j = v / 256 ^ k % 256 ^ j := by
  induction j with
  | zero => intro k _; simp [loadBytes, Nat.mod_one]
  | succ j ih =>
    intro k hk
    have hin := storeBytes_byte_inside m a n v (a + k) (by omega) (by omega)
    have hrec := ih (k + 1) (by omega)
    rw [← Nat.add_assoc] at hrec
    simp only [loadBytes, hin, hrec, Nat.add_sub_cancel_left, Nat.mod_mod]
    rw [pow_succ, pow_succ, ← Nat.div_div_eq_div_mul, Nat.mul_comm (256 ^ j) 256, Nat.mod_mul]

theorem loadBytes_storeBytes (m : Memory) (a n v : Nat) :
    loadBytes (storeBytes m a n v) a n = v % 256 ^ n := by
  have h := loadBytes_storeBytes_aux m a n v n 0 (by omega)
  simpa using h

theorem loadInt_storeBytes (m : Memory) (a : Nat) (v : Int) (hv : isInt64 v)
    (ha : allocRange m a cellBytes = true) :
    loadInt (storeBytes m a cellBytes (wrap64 v)) a = some v := by
  unfold loadInt
  rw [allocRange_storeBytes, if_pos ha, loadBytes_storeBytes]
  have h1 : wrap64 v % 256 ^ cellBytes = wrap64 v := by
    apply Nat.mod_eq_of_lt
    have := wrap64_lt v
    simpa [cellBytes] using this
  rw [h1, signed64_wrap64 v hv]

theorem loadChar_storeBytes (m : Memory) (a : Nat) (v : Int) (ha : m.alloc a = true) :
    loadChar (storeBytes m a 1 (wrap64 v)) a = some (toChar v) := by
  unfold loadChar
  have hb : (storeBytes m a 1 (wrap64 v)).byte a = wrap64 v % 256 := by
    rw [storeBytes_byte_inside m a 1 (wrap64 v) a (le_refl a) (by omega)]
    simp
  have hal : (storeBytes m a 1 (wrap64 v)).alloc a = true := ha
  rw [if_pos hal, hb, Nat.mod_mod, wrap64_mod_256, toChar_mod]

/-! ## Globals in memory -/

theorem overlay_outside (m : Memory) (x : Nat) :
    ∀ cs : List (Nat × Nat), (∀ c ∈ cs, ¬ (c.1 ≤ x ∧ x < c.1 + cellBytes)) →
      (overlay m cs).byte x = m.byte x ∧ (overlay m cs).alloc x = m.alloc x := by
  intro cs
  induction cs with
  | nil => intro _; exact ⟨rfl, rfl⟩
  | cons c cs ih =>
    intro h
    have hc := h c (List.mem_cons_self c cs)
    have ih' := ih (fun d hd => h d (List.mem_cons_of_mem c hd))
    simp only [overlay, putCell, hc, if_false, decide_False, Bool.false_or]
    exact ih'

theorem not_overlaps_of_clear (L : Layout) (a n g : Nat) (h : clearOfGlobals L a n = true)
    (hg : g ∈ L.addrs) : overlaps a n g = false := by
  simp only [clearOfGlobals, List.all_eq_true] at h
  have := h g hg
  simpa using this

theorem image_outside (s : State) (a n x : Nat) (h : clearOfGlobals s.lay a n = true)
    (h1 : a ≤ x) (h2 : x < a + n) :
    (image s).byte x = s.mem.byte x ∧ (image s).alloc x = s.mem.alloc x := by
  apply overlay_outside
  intro c hc hcx
  have hmem : c.1 ∈ s.lay.addrs := by
    have h3 : c.1 ∈ (globalCells s).map Prod.fst := List.mem_map_of_mem _ hc
    exact h3
  have hno := not_overlaps_of_clear s.lay a n c.1 h hmem
  simp only [overlaps, decide_eq_false_iff_not] at hno
  omega

theorem loadBytes_congr (m1 m2 : Memory) (n : Nat) :
    ∀ a, (∀ x, a ≤ x → x < a + n → m1.byte x = m2.byte x) →
      loadBytes m1 a n = loadBytes m2 a n := by
  induction n with
  | zero => intro a _; rfl
  | succ n ih =>
    intro a h
    simp only [loadBytes]
    rw [h a (le_refl a) (by omega), ih (a + 1) (fun x hx1 hx2 => h x (by omega) (by omega))]

theorem allocRange_congr (m1 m2 : Memory) (n : Nat) :
    ∀ a, (∀ x, a ≤ x → x < a + n → m1.alloc x = m2.alloc x) →
      allocRange m1 a n = allocRange m2 a n := by
  induction n with
  | zero => intro a _; rfl
  | succ n ih =>
    intro a h
    simp only [allocRange]
    rw [h a (le_refl a) (by omega), ih (a + 1) (fun x hx1 hx2 => h x (by omega) (by omega))]

theorem allocRange_image_clear (s : State) (a n : Nat) (h : clearOfGlobals s.lay a n = true) :
    allocRange (image s) a n = allocRange s.mem a n :=
  allocRange_congr (image s) s.mem n a (fun x h1 h2 => (image_outside s a n x h h1 h2).2)

theorem loadInt_image_clear (s : State) (a : Nat)
    (h : clearOfGlobals s.lay a cellBytes = true) : loadInt (image s) a = loadInt s.mem a := by
  unfold loadInt
  rw [allocRange_image_clear s a cellBytes h,
    loadBytes_congr (image s) s.mem cellBytes a
      (fun x h1 h2 => (image_outside s a cellBytes x h h1 h2).1)]

theorem loadChar_image_clear (s : State) (a : Nat)
    (h : clearOfGlobals s.lay a 1 = true) : loadChar (image s) a = loadChar s.mem a := by
  have hx := image_outside s a 1 a h (le_refl a) (by omega)
  unfold loadChar
  rw [hx.1, hx.2]

theorem storeAt_clear (s : State) (a n v : Nat) (h : clearOfGlobals s.lay a n = true)
    (hal : allocRange s.mem a n = true) :
    storeAt s a n v = some { s with mem := storeBytes s.mem a n v } := by
  have hmem : ∀ g ∈ s.lay.addrs, overlaps a n g = false :=
    fun g hg => not_overlaps_of_clear s.lay a n g h hg
  simp only [Layout.addrs, List.mem_cons, List.mem_singleton, forall_eq_or_imp, forall_eq,
    List.not_mem_nil, false_imp_iff, implies_true, and_true] at hmem
  obtain ⟨h1, h2, h3, h4, h5, h6, h7, h8, h9, h10, h11, h12, h13, h14⟩ := hmem
  have hal' : allocRange (image s) a n = true := by
    rw [allocRange_image_clear s a n h]; exact hal
  simp only [storeAt, hal', if_true, reloadInt, reloadPtr, h1, h2, h3, h4, h5, h6, h7, h8, h9,
    h10, h11, h12, h13, h14, Bool.false_eq_true, if_false]

/-! ## The stub lexer and `program` -/

theorem next_of_holds (s : State) (c : Nat) (rest : List Nat) (hc : c < 128)
    (h : holdsBytes s.mem s.src (c :: rest) = true) :
    next s = some { s with token := Int.ofNat c, src := s.src + 1 } := by
  simp only [holdsBytes, Bool.and_eq_true, decide_eq_true_eq] at h
  obtain ⟨⟨hal, hb⟩, _⟩ := h
  simp only [next, loadChar, hal, hb, if_true, toChar_ascii c hc]
  rfl

theorem holdsBytes_tail (m : Memory) (a c : Nat) (rest : List Nat)
    (h : holdsBytes m a (c :: rest) = true) : holdsBytes m (a + 1) rest = true := by
  simp only [holdsBytes, Bool.and_eq_true] at h
  exact h.2

theorem programLoop_ascii (cs : List Nat) :
    ∀ (s : State) (k : Nat), (∀ c ∈ cs, 0 < c ∧ c < 128) →
      holdsBytes s.mem s.src (cs ++ [0]) = true → 0 < s.token →
      programLoop (cs.length + 2 + k) s =
        Result.done { s with token := 0, src := s.src + cs.length + 1,
                             out := s.out ++ s.token :: cs.map Int.ofNat } := by
  induction cs with
  | nil =>
    intro s k _ h htok
    have hfuel : ([] : List Nat).length + 2 + k = (k + 1) + 1 := by simp; omega
    have hn := next_of_holds { s with out := s.out ++ [s.token] } 0 [] (by omega) h
    rw [hfuel, programLoop, if_pos htok, hn]
    simp [programLoop]
  | cons c cs ih =>
    intro s k hall h htok
    rw [List.cons_append] at h
    have hc := hall c (List.mem_cons_self c cs)
    have hfuel : (c :: cs).length + 2 + k = (cs.length + 2 + k) + 1 := by simp; omega
    have hn := next_of_holds { s with out := s.out ++ [s.token] } c (cs ++ [0]) hc.2 h
    rw [hfuel, programLoop, if_pos htok, hn]
    have htail := holdsBytes_tail s.mem s.src c (cs ++ [0]) h
    have hrec := ih { s with out := s.out ++ [s.token], token := Int.ofNat c, src := s.src + 1 } k
      (fun d hd => hall d (List.mem_cons_of_mem c hd)) htail (by show (0 : Int) < Int.ofNat c; simp; omega)
    dsimp only at hrec ⊢
    rw [hrec]
    simp [Nat.add_assoc, Nat.add_comm 1]

theorem program_ascii (cs : List Nat) (s : State) (k : Nat)
    (hall : ∀ c ∈ cs, 0 < c ∧ c < 128)
    (h : holdsBytes s.mem s.src (cs ++ [0]) = true) :
    program (cs.length + 1 + k) s =
      Result.done { s with token := 0, src := s.src + cs.length + 1,
                           out := s.out ++ cs.map Int.ofNat } := by
  cases cs with
  | nil =>
    have hn := next_of_holds s 0 [] (by omega) h
    have hfuel : ([] : List Nat).length + 1 + k = k + 1 := by simp; omega
    rw [program, hn, hfuel]
    simp [programLoop]
  | cons c cs =>
    rw [List.cons_append] at h
    have hc := hall c (List.mem_cons_self c cs)
    have hn := next_of_holds s c (cs ++ [0]) hc.2 h
    have htail := holdsBytes_tail s.mem s.src c (cs ++ [0]) h
    have hrec := programLoop_ascii cs { s with token := Int.ofNat c, src := s.src + 1 } k
      (fun d hd => hall d (List.mem_cons_of_mem c hd)) htail (by show (0 : Int) < Int.ofNat c; simp; omega)
    have hfuel : (c :: cs).length + 1 + k = cs.length + 2 + k := by simp
    rw [program, hn, hfuel]
    dsimp only at hrec ⊢
    rw [hrec]
    simp [Nat.add_assoc, Nat.add_comm 1]

/-! ## The stub interpreter -/

theorem eval_not_done (op : Int) (fuel : Nat) :
    ∀ (s : State) (r : Int × State), eval op fuel s ≠ Result.done r := by
  induction fuel with
  | zero => intro s r h; simp [eval] at h
  | succ n ih =>
    intro s r h
    rw [eval, if_pos (by decide)] at h
    cases hb : evalBody op s with
    | none => simp [hb] at h
    | some s' => rw [hb] at h; exact ih s' r h

theorem evalBody_other (op : Int) (s : State) (h1 : op ≠ IMM) (h2 : op ≠ LC) (h3 : op ≠ LI)
    (h4 : op ≠ SC) (h5 : op ≠ SI) : evalBody op s = some s := by
  simp [evalBody, h1, h2, h3, h4, h5]

theorem eval_other_running (op : Int) (h1 : op ≠ IMM) (h2 : op ≠ LC) (h3 : op ≠ LI)
    (h4 : op ≠ SC) (h5 : op ≠ SI) (fuel : Nat) (s : State) :
    eval op fuel s = Result.running := by
  induction fuel with
  | zero => rfl
  | succ n ih => rw [eval, if_pos (by decide), evalBody_other op s h1 h2 h3 h4 h5]; exact ih

theorem evalBody_LI (s : State) (v : Int) (h : loadInt (image s) (wrap64 s.ax) = some v) :
    evalBody LI s = some { s with ax := v } := by
  have h1 : LI ≠ IMM := by decide
  have h2 : LI ≠ LC := by decide
  simp only [evalBody, if_neg h1, if_neg h2, if_true, h]

theorem evalBody_LC (s : State) (c : Int) (h : loadChar (image s) (wrap64 s.ax) = some c) :
    evalBody LC s = some { s with ax := c } := by
  have h1 : LC ≠ IMM := by decide
  simp only [evalBody, if_neg h1, if_true, h]

theorem evalBody_SI (s : State) (a : Int) (hstack : loadInt (image s) s.sp = some a)
    (hdst : allocRange s.mem (wrap64 a) cellBytes = true)
    (hclear : clearOfGlobals s.lay (wrap64 a) cellBytes = true) :
    evalBody SI s = some { s with sp := s.sp + cellBytes,
                                  mem := storeBytes s.mem (wrap64 a) cellBytes (wrap64 s.ax) } := by
  have h1 : SI ≠ IMM := by decide
  have h2 : SI ≠ LC := by decide
  have h3 : SI ≠ LI := by decide
  have h4 : SI ≠ SC := by decide
  simp only [evalBody, if_neg h1, if_neg h2, if_neg h3, if_neg h4, if_true, hstack,
    storeAt_clear { s with sp := s.sp + cellBytes } _ _ _ hclear hdst]

theorem evalBody_SC (s : State) (a : Int) (hstack : loadInt (image s) s.sp = some a)
    (hdst : s.mem.alloc (wrap64 a) = true)
    (hclear : clearOfGlobals s.lay (wrap64 a) 1 = true) :
    evalBody SC s = some { s with sp := s.sp + cellBytes,
                                  mem := storeBytes s.mem (wrap64 a) 1 (wrap64 s.ax),
                                  ax := toChar s.ax } := by
  have h1 : SC ≠ IMM := by decide
  have h2 : SC ≠ LC := by decide
  have h3 : SC ≠ LI := by decide
  have hal : allocRange s.mem (wrap64 a) 1 = true := by
    simp only [allocRange, hdst, Bool.and_self]
  simp only [evalBody, if_neg h1, if_neg h2, if_neg h3, if_true, hstack,
    storeAt_clear { s with sp := s.sp + cellBytes } _ _ _ hclear hal]

theorem main_faults_on_successful_read (h : Host) (h1 : 0 ≤ h.openResult)
    (h2 : h.mallocResult ≠ 0) (h3 : 0 < h.readResult) : main h = MainOutcome.fault 124 := by
  have h1' : ¬ h.openResult < 0 := by omega
  have h3' : ¬ h.readResult ≤ 0 := by omega
  simp [main, mainFrom, h1', h2, h3', memsetDefined]

theorem mainFrom_full_read (text stack data : Nat) (ht : text ≠ 0) (hs : stack ≠ 0)
    (hd : data ≠ 0) : mainFrom text stack data fullRead = MainOutcome.fault 131 := by
  have hb : ¬ inBuffer mainPoolsize fullRead.readResult := by decide
  have h1 : ¬ fullRead.openResult < 0 := by decide
  have h2 : fullRead.mallocResult ≠ 0 := by decide
  have h3 : ¬ fullRead.readResult ≤ 0 := by decide
  simp [mainFrom, h1, h2, h3, memsetDefined, ht, hs, hd, hb]

/-! ## Claims -/

/-- C1 (fails on the code): on the null-terminated buffer `0x80 'a' 0`, `program()`
returns after its first `next()`: the byte 0x80 reads as -128 through the signed
`char`, the test `token > 0` fails, and the function returns with `token = -128`
and `src` one past the start, while the terminator sits two bytes further on
and the byte `'a'` was never read. -/
theorem program_stops_at_high_byte :
    holdsBytes highByteState.mem highByteState.src [0x80, 0x61, 0] = true ∧
    ∃ s, program 3 highByteState = Result.done s ∧ s.token = -128 ∧
      s.src = highByteState.src + 1 ∧ s.src ≠ highByteState.src + 3 ∧ s.out = [] :=
  ⟨rfl, _, rfl, rfl, rfl, by decide, rfl⟩

/-- C2 (as stated, refuted): on the buffer `" a"` the token after `next()` is the
space character 32, and `program()` reports the tokens 32, 97 for it but only
97 for the same buffer without the space. -/
theorem next_keeps_whitespace :
    (∃ s, next spaceState = some s ∧ s.token = 32) ∧
    (∃ s1 s2, program 3 spaceState = Result.done s1 ∧ program 3 noSpaceState = Result.done s2 ∧
      s1.out = [32, 97] ∧ s2.out = [97] ∧ s1.out ≠ s2.out) :=
  ⟨⟨_, rfl, rfl⟩, _, _, rfl, rfl, rfl, rfl, by decide⟩

/-- C2 (amended): `next()` skips nothing.  At every readable position it sets the
token to the one character at `src`, whatever character that is, and advances
`src` by one; so for a null-terminated buffer whose characters before the
terminator are in 1..127, `program()` (given at least one loop test per
character and one for the terminator) reports exactly those characters in
order, whitespace and comment characters included, and stops just past the
terminator with token 0. -/
theorem next_takes_every_char (s : State) (cs : List Nat) (k : Nat)
    (hall : ∀ c ∈ cs, 0 < c ∧ c < 128)
    (h : holdsBytes s.mem s.src (cs ++ [0]) = true) :
    (∀ (t : State) (c : Int), loadChar t.mem t.src = some c →
      next t = some { t with token := c, src := t.src + 1 }) ∧
    program (cs.length + 1 + k) s =
      Result.done { s with token := 0, src := s.src + cs.length + 1,
                           out := s.out ++ cs.map Int.ofNat } := by
  refine ⟨?_, program_ascii cs s k hall h⟩
  intro t c hc
  simp only [next, hc]

/-- The amended C2 statement at the buffer `" a"`: both characters are reported. -/
theorem next_takes_every_char_witness :
    (∀ c ∈ [0x20, 0x61], 0 < c ∧ c < 128) ∧
    holdsBytes spaceState.mem spaceState.src ([0x20, 0x61] ++ [0]) = true ∧
    program 3 spaceState =
      Result.done { spaceState with token := 0, src := 1003, out := [32, 97] } :=
  ⟨by decide, rfl,
    (next_takes_every_char spaceState [0x20, 0x61] 0 (by decide) rfl).2⟩

/-- C3 (fails on the code): the text cell at `pc` holds `IMM`, yet the branch an
iteration takes follows the never-assigned local `op`, and nothing is fetched:
with `op = EXIT` the iteration changes nothing (`pc` is not advanced), and with
`op = LI` it runs the `LI` branch, loading 42 through `ax`, with `pc` still on
the `IMM` cell. -/
theorem eval_dispatch_ignores_pc :
    loadInt fetchState.mem fetchState.pc = some IMM ∧
    evalBody EXIT fetchState = some fetchState ∧
    (∃ s, evalBody LI fetchState = some s ∧ s.ax = 42 ∧ s.pc = fetchState.pc) :=
  ⟨rfl, rfl, _, rfl, rfl, rfl⟩

/-- C4: when the dispatched opcode is `IMM` and `pc` addresses a readable cell
holding `v`, one iteration of the loop of `eval()` sets `ax` to `v`, advances
`pc` by one cell, and leaves `sp`, `bp` and all of memory unchanged. -/
theorem eval_IMM_loads_operand (op : Int) (s : State) (v : Int) (hop : op = IMM)
    (hpc : loadInt (image s) s.pc = some v) :
    ∃ s', evalBody op s = some s' ∧ s'.ax = v ∧ s'.pc = s.pc + cellBytes ∧
      s'.sp = s.sp ∧ s'.bp = s.bp ∧ s'.mem = s.mem := by
  subst hop
  exact ⟨{ s with ax := v, pc := s.pc + cellBytes },
    by simp only [evalBody, if_true, hpc], rfl, rfl, rfl, rfl, rfl⟩

/-- C4 at a state whose `pc` is on a cell holding 42. -/
theorem eval_IMM_loads_operand_witness :
    loadInt (image operandState) operandState.pc = some 42 ∧
    ∃ s', evalBody IMM operandState = some s' ∧ s'.ax = 42 ∧ s'.pc = 8 + cellBytes ∧
      s'.sp = operandState.sp ∧ s'.bp = operandState.bp ∧ s'.mem = operandState.mem :=
  ⟨rfl, eval_IMM_loads_operand IMM operandState 42 rfl rfl⟩

/-- C5 (as stated, refuted): the stack is non-empty and its top cell holds the
address of the global `pc`; with `ax = 85` the `SC` branch pops the cell and
stores the byte 85 into `pc`, which changes from 0 to 85. -/
theorem eval_SC_overwrites_pc :
    loadInt (image aliasPcState) aliasPcState.sp = some 65608 ∧
    aliasPcState.lay.pc = 65608 ∧ aliasPcState.pc = 0 ∧ aliasPcState.ax = 85 ∧
    ∃ s', evalBody SC aliasPcState = some s' ∧ s'.sp = aliasPcState.sp + cellBytes ∧
      s'.pc = 85 ∧ s'.pc ≠ aliasPcState.pc := by
  refine ⟨rfl, rfl, rfl, rfl, _, rfl, rfl, rfl, ?_⟩
  show (85 : Nat) ≠ 0
  decide

/-- C5 (amended): when the dispatched opcode is `SI` or `SC`, the stack is
non-empty (the cell at `sp` is readable and holds `a`) and the bytes the store
writes at the address `a` are allocated and lie outside the storage of the
globals of the file (`pc`, `bp`, `sp`, `ax` and the others), one iteration of
the loop of `eval()` advances `sp` by one cell and leaves `pc`, `bp` and the
set of allocated addresses as they were.  For `SI` the integer cell at `a`
afterwards reads `ax`, every byte outside that cell is unchanged and no global
but `sp` changes; for `SC` the byte at `a` afterwards is the low 8 bits of
`ax`, every other byte is unchanged and no global but `sp` and `ax` changes. -/
theorem eval_store_pops_and_stores (op : Int) (s : State) (a : Int)
    (hop : op = SI ∨ op = SC) (hax : isInt64 s.ax)
    (hstack : loadInt (image s) s.sp = some a)
    (hdst : allocRange s.mem (wrap64 a) (if op = SI then cellBytes else 1) = true)
    (hclear : clearOfGlobals s.lay (wrap64 a) (if op = SI then cellBytes else 1) = true) :
    ∃ s', evalBody op s = some s' ∧ s'.sp = s.sp + cellBytes ∧ s'.pc = s.pc ∧ s'.bp = s.bp ∧
      s'.mem.alloc = s.mem.alloc ∧
      (op = SI → loadInt (image s') (wrap64 a) = some s.ax ∧
        (∀ x, x < wrap64 a ∨ wrap64 a + cellBytes ≤ x → s'.mem.byte x = s.mem.byte x) ∧
        s' = { s with sp := s.sp + cellBytes, mem := s'.mem }) ∧
      (op = SC → Int.ofNat ((image s').byte (wrap64 a)) = s.ax % 256 ∧
        (∀ x, x ≠ wrap64 a → s'.mem.byte x = s.mem.byte x) ∧
        s' = { s with sp := s.sp + cellBytes, mem := s'.mem, ax := toChar s.ax }) := by
  have hne : SC ≠ SI := by decide
  rcases hop with hop | hop
  · subst hop
    rw [if_pos rfl] at hdst hclear
    refine ⟨_, evalBody_SI s a hstack hdst hclear, rfl, rfl, rfl, rfl, ?_, ?_⟩
    · intro _
      refine ⟨?_, fun x hx => storeBytes_byte_outside s.mem (wrap64 a) cellBytes (wrap64 s.ax) x hx,
        rfl⟩
      refine (loadInt_image_clear _ (wrap64 a) ?_).trans
        (loadInt_storeBytes s.mem (wrap64 a) s.ax hax hdst)
      exact hclear
    · intro h
      exact absurd h.symm hne
  · subst hop
    rw [if_neg hne] at hdst hclear
    have hal := allocRange_head s.mem (wrap64 a) 0 hdst
    refine ⟨_, evalBody_SC s a hstack hal hclear, rfl, rfl, rfl, rfl, ?_, ?_⟩
    · intro h
      exact absurd h hne
    · intro _
      refine ⟨?_, fun x hx => storeBytes_byte_outside s.mem (wrap64 a) 1 (wrap64 s.ax) x (by omega),
        rfl⟩
      refine (congrArg Int.ofNat
        (image_outside _ (wrap64 a) 1 (wrap64 a) ?_ (le_refl _) (by omega)).1).trans ?_
      · exact hclear
      show Int.ofNat ((storeBytes s.mem (wrap64 a) 1 (wrap64 s.ax)).byte (wrap64 a)) = s.ax % 256
      rw [storeBytes_byte_inside s.mem (wrap64 a) 1 (wrap64 s.ax) (wrap64 a) (le_refl _) (by omega)]
      simp only [Nat.sub_self, pow_zero, Nat.div_one]
      exact wrap64_mod_256 s.ax

/-- The amended C5 statement at a state with the address 16 on the stack and
`ax = 0x1234`, opcode `SI`. -/
theorem eval_store_pops_and_stores_witness :
    isInt64 (storeState 4660).ax ∧
    loadInt (image (storeState 4660)) (storeState 4660).sp = some 16 ∧
    allocRange (storeState 4660).mem 16 cellBytes = true ∧
    clearOfGlobals (storeState 4660).lay 16 cellBytes = true ∧
    ∃ s', evalBody SI (storeState 4660) = some s' ∧ s'.sp = 8 ∧ s'.pc = 0 ∧
      loadInt (image s') 16 = some 4660 ∧ s'.mem.byte 16 = 0x34 ∧ s'.mem.byte 17 = 0x12 := by
  obtain ⟨s', h1, h2, h3, _, _, h6, _⟩ :=
    eval_store_pops_and_stores SI (storeState 4660) 16 (Or.inl rfl) (by decide) rfl rfl rfl
  have h := evalBody_SI (storeState 4660) 16 rfl rfl rfl
  rw [h] at h1
  cases h1
  exact ⟨by decide, rfl, rfl, rfl, _, h, h2, h3, (h6 rfl).1, rfl, rfl⟩

/-- C6 (as stated, refuted): with `EXIT` as the dispatched opcode, `pc` on a cell
holding `EXIT` and `ax = 7`, an iteration of the loop of `eval()` changes
nothing, and `eval()` returns for no iteration budget at all. -/
theorem eval_EXIT_never_returns :
    loadInt exitState.mem exitState.pc = some EXIT ∧ exitState.ax = 7 ∧
    evalBody EXIT exitState = some exitState ∧
    ¬ ∃ fuel r, eval EXIT fuel exitState = Result.done r :=
  ⟨rfl, rfl, rfl, fun ⟨fuel, r, h⟩ => eval_not_done EXIT fuel exitState r h⟩

/-- C6 (amended): for every VM state, when the dispatched opcode is `EXIT` one
iteration of the loop of `eval()` leaves the whole state unchanged, the loop is
still running after any number of iterations, and `eval()` never returns. -/
theorem eval_EXIT_keeps_running (s : State) (fuel : Nat) :
    evalBody EXIT s = some s ∧ eval EXIT fuel s = Result.running ∧
    ∀ r, eval EXIT fuel s ≠ Result.done r :=
  ⟨evalBody_other EXIT s (by decide) (by decide) (by decide) (by decide) (by decide),
   eval_other_running EXIT (by decide) (by decide) (by decide) (by decide) (by decide) fuel s,
   eval_not_done EXIT fuel s⟩

/-- C7 (as stated, refuted): with `ax = 0` and `DIV` or `MOD` as the dispatched
opcode, an iteration of the loop of `eval()` completes without a fault and
changes nothing, and no iteration budget ends in a fault. -/
theorem eval_DIV_by_zero_no_fault :
    divState.ax = 0 ∧
    evalBody DIV divState = some divState ∧ evalBody MOD divState = some divState ∧
    (¬ ∃ fuel, eval DIV fuel divState = Result.fault) ∧
    (¬ ∃ fuel, eval MOD fuel divState = Result.fault) := by
  refine ⟨rfl, rfl, rfl, ?_, ?_⟩
  · rintro ⟨fuel, h⟩
    rw [eval_other_running DIV (by decide) (by decide) (by decide) (by decide) (by decide)] at h
    cases h
  · rintro ⟨fuel, h⟩
    rw [eval_other_running MOD (by decide) (by decide) (by decide) (by decide) (by decide)] at h
    cases h

/-- C7 (amended): for every VM state in which the dispatched opcode is `DIV` or
`MOD` and the accumulator is 0, one iteration of the loop of `eval()` leaves the
whole state unchanged without any fault, and the loop is still running after
any number of iterations. -/
theorem eval_DIV_MOD_zero_keeps_running (op : Int) (s : State) (fuel : Nat)
    (hop : op = DIV ∨ op = MOD) (_hax : s.ax = 0) :
    evalBody op s = some s ∧ eval op fuel s = Result.running := by
  rcases hop with hop | hop <;> subst hop
  · exact ⟨evalBody_other DIV s (by decide) (by decide) (by decide) (by decide) (by decide),
      eval_other_running DIV (by decide) (by decide) (by decide) (by decide) (by decide) fuel s⟩
  · exact ⟨evalBody_other MOD s (by decide) (by decide) (by decide) (by decide) (by decide),
      eval_other_running MOD (by decide) (by decide) (by decide) (by decide) (by decide) fuel s⟩

/-- The amended C7 statement at a state with `ax = 0`, opcode `DIV`. -/
theorem eval_DIV_MOD_zero_keeps_running_witness :
    (DIV = DIV ∨ DIV = MOD) ∧ divState.ax = 0 ∧
    evalBody DIV divState = some divState ∧ eval DIV 1000 divState = Result.running :=
  ⟨Or.inl rfl, rfl, eval_DIV_MOD_zero_keeps_running DIV divState 1000 (Or.inl rfl) rfl⟩

/-- C8 (as stated, refuted): after `program()` has run over the scenario source
with a zeroed text region, the first text cell still holds 0 (`LEA`), not `ENT`,
and `eval()` over the resulting state returns status 2 for no value of `op`
and no iteration budget. -/
theorem scenario_text_stays_empty :
    holdsBytes scenarioState.mem scenarioState.src (scenarioSource ++ [0]) = true ∧
    loadInt scenarioState.mem scenarioState.text = some 0 ∧
    ∃ s, program 42 scenarioState = Result.done s ∧ s.token = 0 ∧
      loadInt s.mem s.text = some LEA ∧ loadInt s.mem s.text ≠ some ENT ∧
      ¬ ∃ op fuel t, eval op fuel s = Result.done (2, t) := by
  have hp := program_ascii scenarioSource scenarioState 0 (by decide) rfl
  have h0 : loadInt scenarioMem 1024 = some 0 := rfl
  refine ⟨rfl, h0, _, hp, rfl, h0, ?_, ?_⟩
  · show loadInt scenarioMem 1024 ≠ some ENT
    rw [h0]
    decide
  · rintro ⟨op, fuel, t, h⟩
    exact eval_not_done op fuel _ (2, t) h

/-- C8 (amended): given the scenario source, null-terminated, at `src`,
`program()` only reports its 41 characters one by one as tokens and returns at
the terminator with token 0; every other global and all of memory, the text
region included, are as before, so nothing is emitted.  `expression()` changes
nothing, and `eval()` returns no status, whatever the state, the value of `op`
and the iteration budget. -/
theorem scenario_only_reports_chars (s : State) (k : Nat)
    (h : holdsBytes s.mem s.src (scenarioSource ++ [0]) = true) :
    program (scenarioSource.length + 1 + k) s =
      Result.done { s with token := 0, src := s.src + scenarioSource.length + 1,
                           out := s.out ++ scenarioSource.map Int.ofNat } ∧
    (∀ (level : Int) (t : State), expression level t = t) ∧
    (∀ (op : Int) (fuel : Nat) (t : State) (r : Int × State), eval op fuel t ≠ Result.done r) :=
  ⟨program_ascii scenarioSource s k (by decide) h, fun _ _ => rfl,
    fun op fuel t r => eval_not_done op fuel t r⟩

/-- The amended C8 statement at the scenario state. -/
theorem scenario_only_reports_chars_witness :
    holdsBytes scenarioState.mem scenarioState.src (scenarioSource ++ [0]) = true ∧
    program 42 scenarioState =
      Result.done { scenarioState with token := 0, src := 4096 + 42,
                                       out := scenarioSource.map Int.ofNat } :=
  ⟨rfl, (scenario_only_reports_chars scenarioState 0 rfl).1⟩

/-- C9 (as stated, refuted): the address of the global `ax` is a valid address;
with it on top of the stack and `ax = 7`, the `SI` branch stores 7 into `ax`
itself, and the `LI` branch with `ax` set to that address then loads the
address, 65632, not 7.  Likewise the `SC` branch leaves `ax = 7`, and the `LC`
branch with `ax` set to that address loads 96, the low byte of the address. -/
theorem round_trip_through_ax_fails :
    isInt64 7 ∧ aliasAxState.ax = 7 ∧ aliasAxState.lay.ax = 65632 ∧
    loadInt (image aliasAxState) aliasAxState.sp = some 65632 ∧
    allocRange (image aliasAxState) 65632 cellBytes = true ∧
    (∃ s1 s2, evalBody SI aliasAxState = some s1 ∧
      evalBody LI { s1 with ax := 65632 } = some s2 ∧ s2.ax = 65632 ∧ s2.ax ≠ 7) ∧
    (∃ s1 s2, evalBody SC aliasAxState = some s1 ∧ s1.ax = 7 ∧
      evalBody LC { s1 with ax := 65632 } = some s2 ∧ s2.ax = 96 ∧ s2.ax ≠ toChar 7) := by
  refine ⟨by decide, rfl, rfl, rfl, rfl, ⟨_, _, rfl, rfl, rfl, ?_⟩,
    ⟨_, _, rfl, rfl, rfl, rfl, ?_⟩⟩
  · show (65632 : Int) ≠ 7
    decide
  · show (96 : Int) ≠ toChar 7
    decide

/-- C9 (amended): for every `long long` value `v` in `ax` and every address `a`
on top of the stack that lies outside the storage of the globals of the file,
if the cell at `a` is allocated then the `SI` branch followed by the `LI`
branch with `ax = a` leaves `ax = v`; if the byte at `a` is allocated then the
`SC` branch leaves `ax` equal to the low byte of `v` sign-extended, which is
also what a following `LC` branch with `ax = a` loads; and that value is `v`
exactly when `-128 ≤ v ≤ 127`. -/
theorem store_load_round_trip (s : State) (v a : Int) (hv : isInt64 v) (hax : s.ax = v)
    (hstack : loadInt (image s) s.sp = some a) :
    (allocRange s.mem (wrap64 a) cellBytes = true →
      clearOfGlobals s.lay (wrap64 a) cellBytes = true →
      ∃ s1, evalBody SI s = some s1 ∧
        ∃ s2, evalBody LI { s1 with ax := a } = some s2 ∧ s2.ax = v) ∧
    (s.mem.alloc (wrap64 a) = true →
      clearOfGlobals s.lay (wrap64 a) 1 = true →
      ∃ s1, evalBody SC s = some s1 ∧ s1.ax = toChar v ∧
        ∃ s2, evalBody LC { s1 with ax := a } = some s2 ∧ s2.ax = toChar v) ∧
    (toChar v = v ↔ -128 ≤ v ∧ v ≤ 127) := by
  subst hax
  refine ⟨?_, ?_, toChar_eq_self_iff s.ax⟩
  · intro hdst hclear
    refine ⟨_, evalBody_SI s a hstack hdst hclear, _, evalBody_LI _ s.ax ?_, rfl⟩
    refine (loadInt_image_clear _ (wrap64 a) ?_).trans
      (loadInt_storeBytes s.mem (wrap64 a) s.ax hv hdst)
    exact hclear
  · intro hdst hclear
    refine ⟨_, evalBody_SC s a hstack hdst hclear, rfl, _, evalBody_LC _ (toChar s.ax) ?_, rfl⟩
    refine (loadChar_image_clear _ (wrap64 a) ?_).trans
      (loadChar_storeBytes s.mem (wrap64 a) s.ax hdst)
    exact hclear

/-- The amended C9 statement at `v = 300`, which is not a `char` value, and the
address 16: the integer round trip gives 300 back, the character round trip
gives 44. -/
theorem store_load_round_trip_witness :
    isInt64 300 ∧ loadInt (image (storeState 300)) (storeState 300).sp = some 16 ∧
    clearOfGlobals (storeState 300).lay 16 cellBytes = true ∧
    (∃ s1, evalBody SI (storeState 300) = some s1 ∧
      ∃ s2, evalBody LI { s1 with ax := 16 } = some s2 ∧ s2.ax = 300) ∧
    (∃ s1, evalBody SC (storeState 300) = some s1 ∧ s1.ax = 44 ∧
      ∃ s2, evalBody LC { s1 with ax := 16 } = some s2 ∧ s2.ax = 44) :=
  ⟨by decide, rfl, rfl,
    (store_load_round_trip (storeState 300) 300 16 (by decide) rfl rfl).1 rfl rfl,
    (store_load_round_trip (storeState 300) 300 16 (by decide) rfl rfl).2.1 rfl rfl⟩

/-- C10 (fails on the code): after a successful read, of one byte or of the whole
buffer, `main()` does not reach the terminator write of line 131: `text` is
still a null pointer at the `memset` of line 124, where the behaviour is
undefined.  No terminator is written and `program()` is not entered. -/
theorem main_faults_before_terminator :
    (0 < oneByteRead.readResult ∧ oneByteRead.readResult ≤ mainPoolsize ∧
      main oneByteRead = MainOutcome.fault 124) ∧
    (0 < fullRead.readResult ∧ fullRead.readResult ≤ mainPoolsize ∧
      main fullRead = MainOutcome.fault 124) :=
  ⟨⟨by decide, by decide, rfl⟩, ⟨by decide, by decide, rfl⟩⟩

end XClang
